import Mathlib

/-!
# Verification of the ChatBot message-persistence and analytics core

Shallow embedding of the ChatBot repository's persistence store
(`app/db/crud.py`), statistics aggregator, classifier and response-parser
fallback chain (`app/services/agent.py`), together with proofs of the
spec's testable properties.

Conventions:
* Python strings are modelled as `List Char` where character-level
  operations matter, and as `String` for opaque identifiers.
* Python non-negative integer counters (all are initialised to 0 and only
  incremented, or decremented through `max(· - ·, 0)`) are modelled as
  `Nat`; Python's `max(a - b, 0)` on non-negative ints is exactly
  truncated subtraction on `Nat`.
* `response_time_ms` and `avg_response_time_ms` are Python floats; the
  concrete computations the claims exercise (sums and divisions of small
  integers with exactly representable results) are modelled in `ℚ`.
* SQLAlchemy columns declared with `default=0` / `default=0.0` are never
  `NULL` in any state produced by the modelled operations, so the
  defensive `(x or 0)` guards in the source are identity and the fields
  are modelled as non-optional.
-/

namespace ChatBot

/-! ## Python string primitives -/

/-- Python whitespace characters recognised by `str.strip()`. -/
def isPySpace (c : Char) : Bool :=
  c = ' ' || c = '\t' || c = '\n' || c = '\x0d' || c = '\x0b' || c = '\x0c'

/-- `str.lstrip()` on a character list. -/
def lstripC (s : List Char) : List Char := s.dropWhile isPySpace

/-- `str.strip()` on a character list. -/
def stripC (s : List Char) : List Char :=
  (lstripC ((lstripC s.reverse)).reverse)

/-- Does `pre` occur as a prefix of `s`? (`str.startswith`). -/
def isPrefixC : List Char → List Char → Bool
  | [], _ => true
  | _ :: _, [] => false
  | p :: ps, c :: cs => p = c && isPrefixC ps cs

/-- Does `needle` occur as a contiguous substring of `hay`?
(Python's `needle in hay`). -/
def containsC (needle : List Char) : List Char → Bool
  | [] => needle.isEmpty
  | c :: cs => isPrefixC needle (c :: cs) || containsC needle cs

/-- ASCII lowercasing, as `str.lower()` acts on the ASCII inputs that
appear in the keyword lists and claims. -/
def lowerC (s : List Char) : List Char :=
  s.map (fun c => if 'A' ≤ c && c ≤ 'Z' then Char.ofNat (c.toNat + 32) else c)

/-- `needle in hay` over `String`s (substring test). -/
def pyIn (needle hay : String) : Bool := containsC needle.data hay.data

/-- `any(keyword in text for keyword in kws)`. -/
def anyKeywordIn (kws : List String) (text : List Char) : Bool :=
  kws.any (fun k => containsC k.data text)

/-! ## Classifier (`app/services/agent.py`, `HistoryManager`) -/

/-- `HistoryManager._classify_message_level` from `app/services/agent.py`:
ordered keyword screens over the lowercased message, first match wins. -/
def classify_message_level (message : String) : String :=
  let message_lower := lowerC message.data
  let sensitive_keywords := ["password", "pin", "credit card", "bank", "nid", "account number", "cvv"]
  if anyKeywordIn sensitive_keywords message_lower then "sensitive"
  else
    let critical_keywords := ["payment", "bill", "money", "expire", "disconnect", "due"]
    if anyKeywordIn critical_keywords message_lower then "critical"
    else
      let high_keywords := ["internet", "connection", "router", "speed", "not working", "problem", "issue"]
      if anyKeywordIn high_keywords message_lower then "high"
      else
        let mid_keywords := ["package", "subscription", "plan", "upgrade", "movie", "server"]
        if anyKeywordIn mid_keywords message_lower then "mid"
        else "low"

/-- `HistoryManager._detect_category` from `app/services/agent.py`:
ordered category keyword screens over the lowercased message. -/
def detect_category (message : String) : String :=
  let message_lower := lowerC message.data
  if anyKeywordIn ["bill", "payment", "money", "due", "pay"] message_lower then "billing"
  else if anyKeywordIn ["internet", "connection", "router", "speed", "not working"] message_lower then "technical"
  else if anyKeywordIn ["package", "plan", "subscription", "upgrade"] message_lower then "packages"
  else if anyKeywordIn ["movie", "server", "ftp", "ott", "stream"] message_lower then "entertainment"
  else if anyKeywordIn ["account", "user id", "profile", "details"] message_lower then "account"
  else "general"

/-- `ChatHistoryManager._detect_user_data` from `app/db/crud.py`. -/
def detect_user_data (content : String) : Bool :=
  let sensitive_keywords :=
    ["password", "credit card", "ssn", "social security", "bank account", "pin", "cvv", "passport"]
  let content_lower := lowerC content.data
  anyKeywordIn sensitive_keywords content_lower

/-! ## Data model (`app/db/models.py`)

Wall-clock timestamps (`datetime.utcnow()`) are external inputs; they are
modelled as an abstract tick `now : Nat` passed in by the caller, and the
current day string `today` is likewise a parameter of the statistics
update. `created_at` fields that no claim depends on are omitted. -/

/-- `Conversation` row (`app/db/models.py`). -/
structure Conversation where
  conversation_id : String
  user_id : Option String
  session_type : String
  language : String
  total_messages : Nat
  total_tokens_used : Nat
  updated_at : Nat
  deriving DecidableEq

/-- `Message` row (`app/db/models.py`). -/
structure Message where
  id : Nat
  conversation_id : String
  role : String
  sender : String
  content : String
  message_index : Nat
  message_level : String
  category : Option String
  tokens_used : Nat
  response_time_ms : ℚ
  store : Bool
  contains_user_data : Bool
  tools_used : Option String
  api_calls_made : Nat
  deriving DecidableEq

/-- `DailyStatistics` row (`app/db/models.py`); all counters default to 0
and `avg_response_time_ms` to 0.0. -/
structure DailyStat where
  date : String
  user_id : Option String
  total_conversations : Nat := 0
  total_messages : Nat := 0
  user_messages : Nat := 0
  assistant_messages : Nat := 0
  total_tokens : Nat := 0
  low_level_count : Nat := 0
  mid_level_count : Nat := 0
  high_level_count : Nat := 0
  critical_level_count : Nat := 0
  sensitive_level_count : Nat := 0
  total_api_calls : Nat := 0
  avg_response_time_ms : ℚ := 0
  deriving DecidableEq

/-- The relational store: the three tables plus the autoincrement counter
for `Message.id`. -/
structure DB where
  conversations : List Conversation
  messages : List Message
  stats : List DailyStat
  next_message_id : Nat
  deriving DecidableEq

/-- Replace the first element satisfying `p` by its image under `f`
(an ORM mutation of the row returned by `.filter(...).first()`). -/
def updateFirst (p : α → Bool) (f : α → α) : List α → List α
  | [] => []
  | x :: xs => if p x then f x :: xs else x :: updateFirst p f xs

/-! ## Persistence store (`app/db/crud.py`, `ChatHistoryManager`) -/

/-- `ChatHistoryManager.create_conversation`.  The generated
`conversation_id` (timestamp + uuid suffix in the source) is passed in as
a parameter; its uniqueness is an assumption recorded where reachable
states are defined. -/
def create_conversation (db : DB) (conversation_id : String)
    (user_id : Option String) (language : String) (now : Nat) :
    DB × Conversation :=
  let session_type := if user_id.isSome then "user" else "anonymous"
  let conversation : Conversation :=
    { conversation_id := conversation_id
      user_id := user_id
      session_type := session_type
      language := language
      total_messages := 0
      total_tokens_used := 0
      updated_at := now }
  ({ db with conversations := db.conversations ++ [conversation] }, conversation)

/-- The level-counter update of `_update_daily_stats` (crud.py lines
408-418): increment the counter named by `level_map`, when the level is
one of the five known labels. -/
def bumpLevelCount (s : DailyStat) (level : String) : DailyStat :=
  if level = "low" then { s with low_level_count := s.low_level_count + 1 }
  else if level = "mid" then { s with mid_level_count := s.mid_level_count + 1 }
  else if level = "high" then { s with high_level_count := s.high_level_count + 1 }
  else if level = "critical" then { s with critical_level_count := s.critical_level_count + 1 }
  else if level = "sensitive" then { s with sensitive_level_count := s.sensitive_level_count + 1 }
  else s

/-- Python's implicit `int → float` promotion in the average formula,
modelled as the evident embedding `ℕ → ℚ` (exact for the integers
involved). -/
def natRat (n : Nat) : ℚ := mkRat (Int.ofNat n) 1

/-- The mutation body of `_update_daily_stats` (crud.py lines 398-429)
applied to the located-or-fresh bucket row.  The source's final branch
("recompute the average or leave it") is embedded as one conditional
assignment of the `avg_response_time_ms` field with the same value in
every case.  Note the source increments `assistant_messages` (line 403)
*before* reading it as `current_count` (line 423), so for an assistant
message `current_count` is the count *after* this message's increment. -/
def bumpStats (s : DailyStat) (m : Message) : DailyStat :=
  let s := { s with total_messages := s.total_messages + 1 }
  let s :=
    if m.role = "user" then { s with user_messages := s.user_messages + 1 }
    else { s with assistant_messages := s.assistant_messages + 1 }
  let s := { s with total_tokens := s.total_tokens + m.tokens_used,
                    total_api_calls := s.total_api_calls + m.api_calls_made }
  let s := bumpLevelCount s m.message_level
  { s with avg_response_time_ms :=
      if m.role = "assistant" ∧ m.response_time_ms > 0 then
        if s.assistant_messages > 0 then
          (s.avg_response_time_ms * natRat s.assistant_messages + m.response_time_ms)
            / natRat (s.assistant_messages + 1)
        else m.response_time_ms
      else s.avg_response_time_ms }

/-- `ChatHistoryManager._update_daily_stats`: locate the `(today,
user_id)` bucket, creating a default row when absent, apply the counter
updates, and commit. -/
def update_daily_stats (db : DB) (user_id : Option String) (m : Message)
    (today : String) : DB :=
  let isBucket : DailyStat → Bool :=
    fun s => s.date == today && s.user_id == user_id
  if (db.stats.find? isBucket).isSome then
    { db with stats := updateFirst isBucket (fun s => bumpStats s m) db.stats }
  else
    { db with stats := db.stats ++ [bumpStats { date := today, user_id := user_id } m] }

/-- The first transaction of `ChatHistoryManager.add_message` (crud.py
lines 96-139, committed by the `db.commit()` at line 138): conversation
lookup, `message_index` assignment, message insert, and the parent
conversation's counter/`updated_at` update.  Returns the committed state,
the new message, and the conversation's `user_id` (needed afterwards by
the statistics update); `none` models the `ValueError` raised when the
conversation id is unknown.

`message_index` in the source is `last.message_index + 1` where `last` is
the row with the greatest index (`order_by(desc(message_index)).first()`),
or `1` when no row exists; both cases equal
`foldr max 0 (indices) + 1`. -/
def add_message_tx1 (db : DB) (conversation_id role sender content : String)
    (message_level : String) (category : Option String) (tokens_used : Nat)
    (response_time_ms : ℚ) (store : Bool) (tools_used : Option String)
    (api_calls_made : Nat) (now : Nat) :
    Option (DB × Message × Option String) :=
  match db.conversations.find? (fun c => c.conversation_id == conversation_id) with
  | none => none
  | some conversation =>
    let indices := (db.messages.filter
      (fun m => m.conversation_id == conversation_id)).map Message.message_index
    let message_index := indices.foldr max 0 + 1
    let contains_user_data := detect_user_data content
    let message : Message :=
      { id := db.next_message_id
        conversation_id := conversation_id
        role := role
        sender := sender
        content := content
        message_index := message_index
        message_level := message_level
        category := category
        tokens_used := tokens_used
        response_time_ms := response_time_ms
        store := store
        contains_user_data := contains_user_data
        tools_used := tools_used
        api_calls_made := api_calls_made }
    let db1 : DB :=
      { db with
        messages := db.messages ++ [message]
        conversations := updateFirst
          (fun c => c.conversation_id == conversation_id)
          (fun c => { c with
            total_messages := c.total_messages + 1
            total_tokens_used := c.total_tokens_used + tokens_used
            updated_at := now })
          db.conversations
        next_message_id := db.next_message_id + 1 }
    some (db1, message, conversation.user_id)

/-- `ChatHistoryManager.add_message` end to end: the first transaction
followed by `_update_daily_stats` (which commits separately at crud.py
line 431). -/
def add_message (db : DB) (conversation_id role sender content : String)
    (message_level : String) (category : Option String) (tokens_used : Nat)
    (response_time_ms : ℚ) (store : Bool) (tools_used : Option String)
    (api_calls_made : Nat) (now : Nat) (today : String) :
    Option (DB × Message) :=
  match add_message_tx1 db conversation_id role sender content message_level
      category tokens_used response_time_ms store tools_used api_calls_made now with
  | none => none
  | some (db1, message, uid) =>
    some (update_daily_stats db1 uid message today, message)

/-- The sequence of committed (durable) states an observer of the store
can see while `add_message` runs: the pre-state, the state committed at
crud.py line 138, and the state committed at line 431 inside
`_update_daily_stats`. -/
def add_message_committed_states (db : DB)
    (conversation_id role sender content : String)
    (message_level : String) (category : Option String) (tokens_used : Nat)
    (response_time_ms : ℚ) (store : Bool) (tools_used : Option String)
    (api_calls_made : Nat) (now : Nat) (today : String) : List DB :=
  match add_message_tx1 db conversation_id role sender content message_level
      category tokens_used response_time_ms store tools_used api_calls_made now with
  | none => [db]
  | some (db1, message, uid) => [db, db1, update_daily_stats db1 uid message today]

/-- `ChatHistoryManager.delete_message`: remove the row with the given
primary key (the first match, as `filter(...).first()` plus
`db.delete`), and decrement the parent conversation's counters, floored
at zero — Python's `max((x or 1) - 1, 0)` and `max((x or 0) - t, 0)` on
the non-negative counters are truncated subtraction on `Nat`. -/
def delete_message (db : DB) (message_id : Nat) (now : Nat) : DB × Bool :=
  match db.messages.find? (fun m => m.id == message_id) with
  | none => (db, false)
  | some message =>
    let messages := db.messages.eraseP (fun m => m.id == message_id)
    let conversations := updateFirst
      (fun c => c.conversation_id == message.conversation_id)
      (fun c => { c with
        total_messages := c.total_messages - 1
        total_tokens_used := c.total_tokens_used - message.tokens_used
        updated_at := now })
      db.conversations
    ({ db with messages := messages, conversations := conversations }, true)

/-! ## Query service pagination (`app/db/crud.py`) -/

/-- The page number computed by every paginated query in crud.py
(lines 186, 243, 328, 550): `(skip // limit) + 1`. -/
def pageOf (skip limit : Nat) : Nat := skip / limit + 1

/-- The page count computed by every paginated query in crud.py
(lines 188, 244, 330, 552): `(total + limit - 1) // limit`. -/
def totalPagesOf (total limit : Nat) : Nat := (total + limit - 1) / limit

/-- Result envelope of `ChatHistoryManager.get_conversation_messages`. -/
structure MessagesPage where
  conversation_id : String
  user_id : Option String
  language : String
  total_messages : Nat
  page : Nat
  per_page : Nat
  total_pages : Nat
  messages : List Message
  deriving DecidableEq

/-- Insertion of a message into a list sorted by ascending
`message_index` (`order_by(Message.message_index)`). -/
def insertByIndex (m : Message) : List Message → List Message
  | [] => [m]
  | x :: xs =>
    if m.message_index ≤ x.message_index then m :: x :: xs
    else x :: insertByIndex m xs

/-- Stable sort by ascending `message_index`. -/
def sortByIndex : List Message → List Message
  | [] => []
  | m :: ms => insertByIndex m (sortByIndex ms)

/-- `ChatHistoryManager.get_conversation_messages`: conjunctive filters,
count, paginated slice ordered by `message_index`, and conversation
metadata (`None`/`"EN"` defaults when the conversation row is absent). -/
def get_conversation_messages (db : DB) (conversation_id : String)
    (skip limit : Nat) (role_filter level_filter category_filter : Option String) :
    MessagesPage :=
  let query := db.messages.filter (fun m => m.conversation_id == conversation_id)
  let query := match role_filter with
    | none => query
    | some r => query.filter (fun m => m.role == r)
  let query := match level_filter with
    | none => query
    | some l => query.filter (fun m => m.message_level == l)
  let query := match category_filter with
    | none => query
    | some c => query.filter (fun m => m.category == some c)
  let total := query.length
  let page_messages := ((sortByIndex query).drop skip).take limit
  let conversation := db.conversations.find?
    (fun c => c.conversation_id == conversation_id)
  { conversation_id := conversation_id
    user_id := match conversation with | some c => c.user_id | none => none
    language := match conversation with | some c => c.language | none => "EN"
    total_messages := total
    page := pageOf skip limit
    per_page := limit
    total_pages := totalPagesOf total limit
    messages := page_messages }

/-- Python truthiness of the `user_id` value (`None` and `""` are falsy). -/
def pyFalsyOptStr : Option String → Bool
  | none => true
  | some s => s == ""

/-- The `/api/history/conversations/{id}` endpoint body
(`app/api/endpoints/history.py` lines 100-114): raise 404 when
`result["total_messages"] == 0 and not result["user_id"]`. -/
def endpoint_get_conversation_messages (db : DB) (conversation_id : String)
    (skip limit : Nat) (role_filter level_filter category_filter : Option String) :
    Except Nat MessagesPage :=
  let result := get_conversation_messages db conversation_id skip limit
    role_filter level_filter category_filter
  if result.total_messages == 0 && pyFalsyOptStr result.user_id then
    Except.error 404
  else
    Except.ok result

/-! ## Response parser (`app/services/agent.py`, `process_chat` lines 274-348)

The fail-safe parsing logic is embedded with its exact control frame.  The
two places where the source calls into external libraries — the strict
JSON attempt of stage 1 (Python `json.loads` plus the trailing-comma
regex and the stage-2 `"reply"` regex fallback, lines 291-313) and the
regex body of the stage-3 double-check (lines 320-325) — are passed in as
function parameters `jsonStage` and `step3Fix`; every theorem below either
holds for all instantiations of these parameters or concerns an input on
which the source provably never reaches them (a cleaned text containing
no `'{'` takes the `start == -1` branch of line 303 and cannot satisfy
the stage-3 `startswith('{')` guard). -/

/-- `str.strip()` on `String`. -/
def pyStrip (s : String) : String := String.mk (stripC s.data)

/-- Replace every occurrence of the two-character sequence `\n` by a
newline, scanning left to right (`str.replace('\\n', '\n')`). -/
def unescapeNewlinesC : List Char → List Char
  | [] => []
  | [c] => [c]
  | c :: d :: rest =>
    if c = '\\' ∧ d = 'n' then '\n' :: unescapeNewlinesC rest
    else c :: unescapeNewlinesC (d :: rest)

/-- `s.replace('\\n', '\n')` on `String`. -/
def pyUnescapeNewlines (s : String) : String := String.mk (unescapeNewlinesC s.data)

/-- `str.endswith` via reversed prefix test. -/
def endsWithC (suffix s : List Char) : Bool := isPrefixC suffix.reverse s.reverse

/-- The markdown-fence stripping of `process_chat` (agent.py lines
276-283): strip, drop a leading ```` ```json ```` or ```` ``` ````, drop a
trailing ```` ``` ````, strip again. -/
def cleanMarkdown (raw_output : String) : String :=
  let t := stripC raw_output.data
  let t :=
    if isPrefixC "```json".data t then t.drop 7
    else if isPrefixC "```".data t then t.drop 3
    else t
  let t := if endsWithC "```".data t then t.take (t.length - 3) else t
  String.mk (stripC t)

/-- The metadata object recovered by the parser; only the default-valued
fields matter to the store (`data.get("metadata", {})` may carry anything,
but the claims only inspect the default). -/
structure Md where
  role : String
  sender : String
  store : Bool
  deriving DecidableEq

/-- The default metadata installed at agent.py line 342. -/
def defaultMd : Md := { role := "assistant", sender := "assistant", store := true }

/-- Intermediate parser state: the extracted reply and the metadata
object (`none` models the empty dict `{}`, which is falsy). -/
structure ParseOutcome where
  reply : String
  metadata : Option Md
  deriving DecidableEq

/-- Extraction stages 1-3 of `process_chat` (agent.py lines 288-325):
when the cleaned text contains both `'{'` and `'}'` the strict-JSON /
regex machinery `jsonStage` runs (lines 296-313); otherwise
`ai_reply = clean_text` with empty metadata (line 303).  Stage 3 (lines
317-325) re-extracts via `step3Fix` only when the reply still looks like
a JSON object with a `"reply":` key. -/
def extract_stages (jsonStage : String → ParseOutcome) (step3Fix : String → String)
    (clean_text : String) : ParseOutcome :=
  let e :=
    if containsC ['{'] clean_text.data && containsC ['}'] clean_text.data then
      jsonStage clean_text
    else
      { reply := clean_text, metadata := none }
  if isPrefixC ['{'] (stripC e.reply.data) && containsC "\"reply\":".data e.reply.data then
    { e with reply := step3Fix e.reply }
  else e

/-- The line-335 canned string used when the raw output is blank. -/
def cannedCouldNotGenerate : String :=
  "দুঃখিত, আমি উত্তর তৈরি করতে পারিনি। দয়া করে আবার চেষ্টা করুন।"

/-- Steps 4-through-final of `process_chat` (agent.py lines 327-348):
revert to the raw output (or the canned line-335 string) when the
extracted reply is blank, unescape newlines and trim, default the
metadata, and install the language-dependent apology when the reply is
still blank. -/
def finalize_reply (language : String) (raw_output : String) (e : ParseOutcome) :
    ParseOutcome :=
  let ai_reply := e.reply
  let ai_reply :=
    if pyStrip ai_reply = "" then
      if pyStrip raw_output ≠ "" then raw_output
      else cannedCouldNotGenerate
    else ai_reply
  let ai_reply := pyStrip (pyUnescapeNewlines ai_reply)
  let metadata := match e.metadata with
    | none => defaultMd
    | some m => m
  let ai_reply :=
    if pyStrip ai_reply = "" then
      if language = "BN" then "দুঃখিত, দয়া করে আবার চেষ্টা করুন।"
      else "I apologize, Please try asking again."
    else ai_reply
  { reply := ai_reply, metadata := some metadata }

/-- The whole reply-parsing pipeline of `process_chat` on the raw model
output, parameterised by the external JSON/regex machinery. -/
def parse_pipeline (jsonStage : String → ParseOutcome) (step3Fix : String → String)
    (raw_output language : String) : ParseOutcome :=
  finalize_reply language raw_output
    (extract_stages jsonStage step3Fix (cleanMarkdown raw_output))

/-! ## Derived notions used by the verification -/

/-- Number of messages owned by conversation `cid`. -/
def countMsgs (msgs : List Message) (cid : String) : Nat :=
  (msgs.filter (fun m => m.conversation_id == cid)).length

/-- Sum of `tokens_used` over the messages owned by conversation `cid`. -/
def sumTokens (msgs : List Message) (cid : String) : Nat :=
  ((msgs.filter (fun m => m.conversation_id == cid)).map Message.tokens_used).sum

/-- The spec invariant of §3: every conversation's denormalised counters
agree with the messages it owns. -/
def ConvCountersCorrect (db : DB) : Prop :=
  ∀ c ∈ db.conversations,
    c.total_messages = countMsgs db.messages c.conversation_id ∧
    c.total_tokens_used = sumTokens db.messages c.conversation_id

/-- Auxiliary referential invariant: every message row points at an
existing conversation (appends require the conversation to exist and the
modelled operation set never deletes conversations). -/
def MsgsOwned (db : DB) : Prop :=
  ∀ m ∈ db.messages, ∃ c ∈ db.conversations, c.conversation_id = m.conversation_id

/-- Combined store invariant maintained by the modelled operations:
conversation ids are pairwise distinct (uuid generation plus the UNIQUE
column constraint), every message points at an existing conversation,
and the denormalised counters are correct. -/
def StoreInv (db : DB) : Prop :=
  (db.conversations.map Conversation.conversation_id).Nodup ∧
  MsgsOwned db ∧ ConvCountersCorrect db

/-- States reachable from the empty store by the operations named in the
spec's §8 property: conversation creation, message append, and message
deletion.  The `create` case assumes the generated conversation id is
fresh — in the source it is a timestamp plus random uuid suffix and the
column carries a UNIQUE constraint. -/
inductive Reachable : DB → Prop
  | empty : Reachable ⟨[], [], [], 0⟩
  | create {db : DB} (cid : String) (uid : Option String) (lang : String) (now : Nat)
      (hdb : Reachable db)
      (hfresh : db.conversations.find? (fun c => c.conversation_id == cid) = none) :
      Reachable (create_conversation db cid uid lang now).1
  | append {db d : DB} {m : Message} (cid role sender content level : String)
      (cat : Option String) (tok : Nat) (rt : ℚ) (st : Bool) (tools : Option String)
      (api now : Nat) (today : String) (hdb : Reachable db)
      (h : add_message db cid role sender content level cat tok rt st tools api now today
            = some (d, m)) :
      Reachable d
  | delete {db : DB} (mid now : Nat) (hdb : Reachable db) :
      Reachable (delete_message db mid now).1

/-- The `total_messages` counter of the `(today, uid)` statistics bucket
(0 when the row does not exist yet). -/
def bucketTotal (db : DB) (today : String) (uid : Option String) : Nat :=
  match db.stats.find? (fun s => s.date == today && s.user_id == uid) with
  | some s => s.total_messages
  | none => 0

/-- Observable atomicity of one `add_message` call: every state an
observer of the store can see while the call runs is either the pre-state
or the final state. -/
abbrev append_observably_atomic (db : DB) (conversation_id role sender content : String)
    (message_level : String) (category : Option String) (tokens_used : Nat)
    (response_time_ms : ℚ) (store : Bool) (tools_used : Option String)
    (api_calls_made : Nat) (now : Nat) (today : String) : Prop :=
  ∀ s ∈ add_message_committed_states db conversation_id role sender content
      message_level category tokens_used response_time_ms store tools_used
      api_calls_made now today,
    s = db ∨
      (add_message db conversation_id role sender content message_level category
        tokens_used response_time_ms store tools_used api_calls_made now today).map
        Prod.fst = some s

/-! ### Concrete scenarios exercised by the claims -/

/-- A store holding one user-owned conversation and nothing else. -/
def oneConvDB : DB :=
  ⟨[⟨"c1", some "u", "user", "EN", 0, 0, 0⟩], [], [], 0⟩

/-- An assistant message carrying only a response time, as appended to a
statistics bucket. -/
def c2_assistant_message (rt : ℚ) : Message :=
  { id := 0, conversation_id := "c", role := "assistant", sender := "assistant",
    content := "", message_index := 1, message_level := "low", category := none,
    tokens_used := 0, response_time_ms := rt, store := true,
    contains_user_data := false, tools_used := none, api_calls_made := 0 }

/-- One `_update_daily_stats` call for an assistant message with the
given response time, against the anonymous bucket of a fixed day. -/
def c2_step (db : DB) (rt : ℚ) : DB :=
  update_daily_stats db none (c2_assistant_message rt) "2026-10-12"

/-- C3 scenario, step 0: a store with one freshly created conversation. -/
def c3_s0 : DB := (create_conversation ⟨[], [], [], 0⟩ "c1" (some "u") "EN" 0).1

/-- C3 scenario: first append. -/
def c3_r1 : Option (DB × Message) :=
  add_message c3_s0 "c1" "user" "user" "a" "low" none 0 0 true none 0 1 "2026-10-12"

/-- C3 scenario: second append. -/
def c3_r2 : Option (DB × Message) :=
  c3_r1.bind (fun p => add_message p.1 "c1" "user" "user" "b" "low" none 0 0 true none 0 2 "2026-10-12")

/-- C3 scenario: delete the second message (primary key 1). -/
def c3_s3 : Option DB := c3_r2.map (fun p => (delete_message p.1 1 3).1)

/-- C3 scenario: third append, after the deletion. -/
def c3_r4 : Option (DB × Message) :=
  c3_s3.bind (fun s => add_message s "c1" "user" "user" "c" "low" none 0 0 true none 0 4 "2026-10-12")

/-- A store holding one anonymous conversation (its `user_id` is `NULL`)
and no messages. -/
def c9_db : DB := ⟨[⟨"anon_1", none, "anonymous", "EN", 0, 0, 0⟩], [], [], 0⟩

/-- Stand-in for the external `json.loads`/`re` machinery at the places a
claim's input provably never consults it. -/
def unusedJsonStage : String → ParseOutcome := fun _ => { reply := "", metadata := none }

/-! ## Helper lemmas -/

theorem containsC_singleton {c : Char} {l : List Char} :
    containsC [c] l = true ↔ c ∈ l := by
  induction l with
  | nil => simp [containsC]
  | cons d t ih =>
    rw [containsC, Bool.or_eq_true, ih]
    simp [isPrefixC, eq_comm]

theorem mem_of_mem_dropWhile {p : Char → Bool} {x : Char} :
    ∀ {l : List Char}, x ∈ List.dropWhile p l → x ∈ l := by
  intro l h
  induction l with
  | nil => simp [List.dropWhile] at h
  | cons d t ih =>
    rw [List.dropWhile] at h
    by_cases hp : p d
    · simp only [hp] at h
      exact List.mem_cons_of_mem d (ih h)
    · simpa only [hp] using h

theorem mem_of_mem_stripC {x : Char} {l : List Char} (h : x ∈ stripC l) : x ∈ l := by
  unfold stripC lstripC at h
  have h1 : x ∈ (List.dropWhile isPySpace l.reverse).reverse :=
    mem_of_mem_dropWhile h
  have h2 : x ∈ List.dropWhile isPySpace l.reverse := List.mem_reverse.mp h1
  exact List.mem_reverse.mp (mem_of_mem_dropWhile h2)

/-- On a cleaned text with no `'{'`, stages 1-3 of the parser reduce to
"the reply is the cleaned text, the metadata dict stays empty",
independently of the external JSON/regex machinery. -/
theorem extract_stages_no_brace (jsonStage : String → ParseOutcome)
    (step3Fix : String → String) (s : String)
    (h : containsC ['{'] s.data = false) :
    extract_stages jsonStage step3Fix s = { reply := s, metadata := none } := by
  have hmem : '{' ∉ s.data := fun hm => by
    rw [containsC_singleton.mpr hm] at h; exact Bool.true_eq_false.mp h
  have hpre : isPrefixC ['{'] (stripC s.data) = false := by
    cases hstrip : stripC s.data with
    | nil => rfl
    | cons d t =>
      have hd : ('{' : Char) ≠ d := fun he => by
        refine hmem (mem_of_mem_stripC ?_)
        rw [hstrip, he]
        exact List.mem_cons_self d t
      simp [isPrefixC, hd]
  simp [extract_stages, h, hpre]

theorem all_pySpace_of_stripC_eq_nil {l : List Char} (h : stripC l = []) :
    ∀ c ∈ l, isPySpace c = true := by
  unfold stripC lstripC at h
  rw [List.dropWhile_eq_nil_iff] at h
  intro c hc
  have hrev : c ∈ l.reverse := List.mem_reverse.mpr hc
  rw [← List.takeWhile_append_dropWhile isPySpace l.reverse] at hrev
  rcases List.mem_append.mp hrev with h1 | h1
  · exact List.mem_takeWhile_imp h1
  · exact h c (List.mem_reverse.mpr h1)

theorem stripC_ne_nil_of_not_space {l : List Char} {c : Char} (hc : c ∈ l)
    (hns : isPySpace c = false) : stripC l ≠ [] := fun h => by
  rw [all_pySpace_of_stripC_eq_nil h c hc] at hns
  exact Bool.true_eq_false.mp hns

theorem stripC_stripC_ne_nil {w : List Char} (h : stripC w ≠ []) :
    stripC (stripC w) ≠ [] := by
  rcases hsw : stripC w with _ | ⟨d, t⟩
  · exact absurd hsw h
  · have hd : isPySpace d = false := by
      have hh := List.head?_dropWhile_not isPySpace ((lstripC w.reverse)).reverse
      have h2 : List.dropWhile isPySpace ((lstripC w.reverse)).reverse = d :: t := hsw
      rw [h2] at hh
      simpa using hh
    intro hnil
    exact stripC_ne_nil_of_not_space (List.mem_cons_self d t) hd hnil

theorem pyStrip_eq_empty_iff (s : String) : pyStrip s = "" ↔ stripC s.data = [] := by
  unfold pyStrip
  constructor
  · intro h
    simpa using congrArg String.data h
  · intro h
    rw [h]

theorem pyStrip_pyStrip_ne_empty {s : String} (h : pyStrip s ≠ "") :
    pyStrip (pyStrip s) ≠ "" := by
  intro hc
  refine stripC_stripC_ne_nil (w := s.data) ?_ ?_
  · exact fun hnil => h ((pyStrip_eq_empty_iff s).mpr hnil)
  · have := (pyStrip_eq_empty_iff (pyStrip s)).mp hc
    simpa [pyStrip] using this

theorem dropWhile_eq_self_of_head_not {p : Char → Bool} :
    ∀ {l : List Char}, (∀ x, l.head? = some x → p x = false) →
      List.dropWhile p l = l
  | [], _ => rfl
  | c :: t, h => by
    rw [List.dropWhile_cons, if_neg (by simp [h c rfl])]

theorem getLast?_dropWhile {p : Char → Bool} :
    ∀ l : List Char, List.dropWhile p l ≠ [] →
      (List.dropWhile p l).getLast? = l.getLast? := by
  intro l
  induction l with
  | nil => intro h; simp [List.dropWhile] at h
  | cons d t ih =>
    intro h
    rw [List.dropWhile_cons]
    by_cases hd : p d = true
    · rw [if_pos hd]
      rw [List.dropWhile_cons, if_pos hd] at h
      have ht : t ≠ [] := by
        intro he
        rw [he] at h
        simp [List.dropWhile] at h
      rw [ih h]
      rcases t with _ | ⟨x, xs⟩
      · exact absurd rfl ht
      · exact List.getLast?_cons_cons.symm
    · rw [if_neg hd]

/-- `str.strip()` is idempotent. -/
theorem stripC_idem (l : List Char) : stripC (stripC l) = stripC l := by
  unfold stripC lstripC
  set B := List.dropWhile isPySpace l.reverse with hB
  set A := List.dropWhile isPySpace B.reverse with hA
  have h1 : List.dropWhile isPySpace A.reverse = A.reverse := by
    apply dropWhile_eq_self_of_head_not
    intro x hx
    rw [List.head?_reverse] at hx
    have hAne : A ≠ [] := by
      intro he
      rw [he] at hx
      simp at hx
    rw [hA, getLast?_dropWhile _ (by rw [← hA]; exact hAne)] at hx
    rw [List.getLast?_reverse] at hx
    have hnot := List.head?_dropWhile_not isPySpace l.reverse
    rw [← hB, hx] at hnot
    simpa using hnot
  rw [h1, List.reverse_reverse]
  apply dropWhile_eq_self_of_head_not
  intro x hx
  have hnot := List.head?_dropWhile_not isPySpace B.reverse
  rw [← hA, hx] at hnot
  simpa using hnot

theorem pyStrip_mk_stripC (t : List Char) :
    pyStrip (String.mk (stripC t)) = String.mk (stripC t) := by
  unfold pyStrip
  rw [show (String.mk (stripC t)).data = stripC t from rfl, stripC_idem]

/-- `cleanMarkdown` ends in a strip, so a further strip is the identity. -/
theorem pyStrip_cleanMarkdown (raw : String) :
    pyStrip (cleanMarkdown raw) = cleanMarkdown raw :=
  pyStrip_mk_stripC _

/-- On text with no backslash, the `'\n'`-unescape rewrites nothing. -/
theorem unescapeNewlinesC_eq_self : ∀ {l : List Char}, '\\' ∉ l →
    unescapeNewlinesC l = l
  | [], _ => rfl
  | [c], _ => rfl
  | c :: d :: t, h => by
    have hc : c ≠ '\\' := fun he => h (he ▸ List.mem_cons_self c (d :: t))
    have ht : '\\' ∉ d :: t := fun hm => h (List.mem_cons_of_mem c hm)
    simp only [unescapeNewlinesC]
    rw [if_neg (fun hand => hc hand.1), unescapeNewlinesC_eq_self ht]

/-- Markdown-fence stripping only removes characters. -/
theorem mem_of_mem_cleanMarkdown {c : Char} {raw : String}
    (h : c ∈ (cleanMarkdown raw).data) : c ∈ raw.data := by
  simp only [cleanMarkdown] at h
  replace h := mem_of_mem_stripC h
  split_ifs at h <;>
    first
    | exact mem_of_mem_stripC h
    | exact mem_of_mem_stripC (List.mem_of_mem_drop h)
    | exact mem_of_mem_stripC (List.mem_of_mem_take h)
    | exact mem_of_mem_stripC (List.mem_of_mem_drop (List.mem_of_mem_take h))

/-- The final fallback of `process_chat` (lines 345-348) never delivers
an empty string. -/
theorem strip_ite_ne_empty (language X : String) :
    (if pyStrip X = "" then
      (if language = "BN" then "দুঃখিত, দয়া করে আবার চেষ্টা করুন।"
       else "I apologize, Please try asking again.")
     else X) ≠ "" := by
  by_cases h : pyStrip X = ""
  · rw [if_pos h]
    by_cases hl : language = "BN"
    · rw [if_pos hl]; decide
    · rw [if_neg hl]; decide
  · rw [if_neg h]
    exact fun hc => h (by rw [hc]; decide)

/-- Steps 4-through-final never deliver an empty reply. -/
theorem finalize_reply_ne_empty (language raw_output : String) (e : ParseOutcome) :
    (finalize_reply language raw_output e).reply ≠ "" := by
  simp only [finalize_reply]
  exact strip_ite_ne_empty language _

theorem le_foldr_max {x : Nat} : ∀ {l : List Nat}, x ∈ l → x ≤ l.foldr max 0 := by
  intro l hx
  induction l with
  | nil => cases hx
  | cons d t ih =>
    rcases List.mem_cons.mp hx with h | h
    · exact h ▸ le_max_left d (t.foldr max 0)
    · exact le_trans (ih h) (le_max_right d (t.foldr max 0))

theorem find?_updateFirst {α : Type} {p : α → Bool} {f : α → α} {l : List α} {x : α}
    (hfind : l.find? p = some x) (hp : p (f x) = true) :
    (updateFirst p f l).find? p = some (f x) := by
  induction l with
  | nil => cases hfind
  | cons d t ih =>
    by_cases hd : p d = true
    · rw [List.find?_cons_of_pos _ hd] at hfind
      obtain rfl : d = x := by injection hfind
      rw [updateFirst, if_pos hd]
      exact List.find?_cons_of_pos _ hp
    · rw [List.find?_cons_of_neg _ (by simpa using hd)] at hfind
      rw [updateFirst, if_neg hd, List.find?_cons_of_neg _ (by simpa using hd)]
      exact ih hfind

theorem bumpLevelCount_date (s : DailyStat) (lvl : String) :
    (bumpLevelCount s lvl).date = s.date := by
  unfold bumpLevelCount; split_ifs <;> rfl

theorem bumpLevelCount_user_id (s : DailyStat) (lvl : String) :
    (bumpLevelCount s lvl).user_id = s.user_id := by
  unfold bumpLevelCount; split_ifs <;> rfl

theorem bumpLevelCount_total_messages (s : DailyStat) (lvl : String) :
    (bumpLevelCount s lvl).total_messages = s.total_messages := by
  unfold bumpLevelCount; split_ifs <;> rfl

theorem bumpStats_fields (s : DailyStat) (m : Message) :
    (bumpStats s m).date = s.date ∧ (bumpStats s m).user_id = s.user_id ∧
    (bumpStats s m).total_messages = s.total_messages + 1 := by
  by_cases h1 : m.role = "user" <;>
    simp [bumpStats, h1, bumpLevelCount_date, bumpLevelCount_user_id,
      bumpLevelCount_total_messages]

theorem update_daily_stats_frame (db : DB) (uid : Option String) (m : Message)
    (today : String) :
    (update_daily_stats db uid m today).messages = db.messages ∧
    (update_daily_stats db uid m today).conversations = db.conversations ∧
    (update_daily_stats db uid m today).next_message_id = db.next_message_id := by
  simp only [update_daily_stats]
  split_ifs <;> exact ⟨rfl, rfl, rfl⟩

theorem bucketTotal_update_daily_stats (db : DB) (uid : Option String) (m : Message)
    (today : String) :
    bucketTotal (update_daily_stats db uid m today) today uid
      = bucketTotal db today uid + 1 := by
  simp only [update_daily_stats]
  by_cases hfind :
      (db.stats.find? (fun s => s.date == today && s.user_id == uid)).isSome = true
  · rw [if_pos hfind]
    obtain ⟨s, hs⟩ := Option.isSome_iff_exists.mp hfind
    have hpbump : (fun s' : DailyStat => s'.date == today && s'.user_id == uid)
        (bumpStats s m) = true := by
      have hps := List.find?_some hs
      simpa [(bumpStats_fields s m).1, (bumpStats_fields s m).2.1] using hps
    unfold bucketTotal
    rw [find?_updateFirst hs hpbump, hs]
    exact (bumpStats_fields s m).2.2
  · rw [if_neg hfind]
    have hnone : db.stats.find? (fun s => s.date == today && s.user_id == uid)
        = none := by
      rw [← Option.not_isSome_iff_eq_none]
      simpa using hfind
    have hpnew : (fun s' : DailyStat => s'.date == today && s'.user_id == uid)
        (bumpStats { date := today, user_id := uid } m) = true := by
      simp [(bumpStats_fields { date := today, user_id := uid } m).1,
        (bumpStats_fields { date := today, user_id := uid } m).2.1]
    unfold bucketTotal
    rw [List.find?_append, hnone]
    have hsingle : List.find? (fun s' : DailyStat => s'.date == today && s'.user_id == uid)
        [bumpStats { date := today, user_id := uid } m]
        = some (bumpStats { date := today, user_id := uid } m) :=
      List.find?_cons_of_pos _ hpnew
    rw [hsingle, Option.none_or]
    simpa using (bumpStats_fields { date := today, user_id := uid } m).2.2

theorem updateFirst_map_eq {α β : Type} {p : α → Bool} {f : α → α} {g : α → β}
    (hg : ∀ a, g (f a) = g a) : ∀ l : List α, (updateFirst p f l).map g = l.map g := by
  intro l
  induction l with
  | nil => rfl
  | cons d t ih =>
    rw [updateFirst]
    by_cases hd : p d
    · rw [if_pos hd]
      simp [hg]
    · rw [if_neg hd]
      simp [ih]

theorem countMsgs_append (msgs : List Message) (m : Message) (cid : String) :
    countMsgs (msgs ++ [m]) cid
      = countMsgs msgs cid + (if m.conversation_id = cid then 1 else 0) := by
  by_cases h : m.conversation_id = cid <;>
    simp [countMsgs, List.filter_append, h]

theorem sumTokens_append (msgs : List Message) (m : Message) (cid : String) :
    sumTokens (msgs ++ [m]) cid
      = sumTokens msgs cid + (if m.conversation_id = cid then m.tokens_used else 0) := by
  by_cases h : m.conversation_id = cid <;>
    simp [sumTokens, List.filter_append, h]

theorem countMsgs_middle (l₁ l₂ : List Message) (a : Message) (cid : String) :
    countMsgs (l₁ ++ a :: l₂) cid
      = countMsgs (l₁ ++ l₂) cid + (if a.conversation_id = cid then 1 else 0) := by
  by_cases h : a.conversation_id = cid <;>
    (simp [countMsgs, List.filter_append, h]; try omega)

theorem sumTokens_middle (l₁ l₂ : List Message) (a : Message) (cid : String) :
    sumTokens (l₁ ++ a :: l₂) cid
      = sumTokens (l₁ ++ l₂) cid + (if a.conversation_id = cid then a.tokens_used else 0) := by
  by_cases h : a.conversation_id = cid <;>
    (simp [sumTokens, List.filter_append, h]; try omega)

theorem find?_of_split {α : Type} {p : α → Bool} (l₁ l₂ : List α) (a : α)
    (hl₁ : ∀ b ∈ l₁, ¬p b = true) (hpa : p a = true) :
    (l₁ ++ a :: l₂).find? p = some a := by
  rw [List.find?_append, List.find?_eq_none.mpr hl₁, Option.none_or]
  exact List.find?_cons_of_pos _ hpa

theorem exists_mem_id_of_map_eq {convs convs' : List Conversation}
    (hmap : convs'.map Conversation.conversation_id
      = convs.map Conversation.conversation_id)
    {cid : String} (h : ∃ c ∈ convs, c.conversation_id = cid) :
    ∃ c ∈ convs', c.conversation_id = cid := by
  obtain ⟨c, hc, hcid⟩ := h
  have hmem : cid ∈ convs'.map Conversation.conversation_id := by
    rw [hmap]
    exact hcid ▸ List.mem_map_of_mem _ hc
  obtain ⟨c', hc', h'⟩ := List.mem_map.mp hmem
  exact ⟨c', hc', h'⟩

theorem countMsgs_eq_zero_of_unowned {db : DB} (hown : MsgsOwned db) {cid : String}
    (hfresh : ∀ c ∈ db.conversations, c.conversation_id ≠ cid) :
    countMsgs db.messages cid = 0 ∧ sumTokens db.messages cid = 0 := by
  have hfil : db.messages.filter (fun x => x.conversation_id == cid) = [] := by
    rw [List.filter_eq_nil_iff]
    intro m hm
    simp only [beq_iff_eq]
    intro heq
    obtain ⟨c, hc, hcid⟩ := hown m hm
    exact hfresh c hc (hcid.trans heq)
  exact ⟨by simp [countMsgs, hfil], by simp [sumTokens, hfil]⟩

/-- Updating the first conversation matching `cid` with a counter change
that matches the message-list change preserves counter correctness, given
distinct conversation ids. -/
theorem convCounters_updateFirst
    {msgs msgs' : List Message} {cid : String} {f : Conversation → Conversation}
    (hid : ∀ c, (f c).conversation_id = c.conversation_id)
    (hbumpN : ∀ c : Conversation, c.conversation_id = cid →
      c.total_messages = countMsgs msgs cid →
      (f c).total_messages = countMsgs msgs' cid)
    (hbumpT : ∀ c : Conversation, c.conversation_id = cid →
      c.total_tokens_used = sumTokens msgs cid →
      (f c).total_tokens_used = sumTokens msgs' cid)
    (hotherN : ∀ cid', cid' ≠ cid → countMsgs msgs' cid' = countMsgs msgs cid')
    (hotherT : ∀ cid', cid' ≠ cid → sumTokens msgs' cid' = sumTokens msgs cid') :
    ∀ convs : List Conversation,
      (convs.map Conversation.conversation_id).Nodup →
      (∀ c ∈ convs, c.total_messages = countMsgs msgs c.conversation_id ∧
        c.total_tokens_used = sumTokens msgs c.conversation_id) →
      ∀ c ∈ updateFirst (fun x => x.conversation_id == cid) f convs,
        c.total_messages = countMsgs msgs' c.conversation_id ∧
        c.total_tokens_used = sumTokens msgs' c.conversation_id := by
  intro convs
  induction convs with
  | nil => intro _ _ c hc; cases hc
  | cons d t ih =>
    intro hnodup hcc c hc
    rw [List.map_cons, List.nodup_cons] at hnodup
    rw [updateFirst] at hc
    by_cases hd : (d.conversation_id == cid) = true
    · have hdcid : d.conversation_id = cid := by simpa using hd
      rw [if_pos hd] at hc
      rcases List.mem_cons.mp hc with rfl | hct
      · have hdN := (hcc d (List.mem_cons_self d t)).1
        have hdT := (hcc d (List.mem_cons_self d t)).2
        rw [hdcid] at hdN hdT
        constructor
        · rw [hid d, hdcid]
          exact hbumpN d hdcid hdN
        · rw [hid d, hdcid]
          exact hbumpT d hdcid hdT
      · have hccid : c.conversation_id ≠ cid := by
          intro he
          apply hnodup.1
          rw [hdcid, ← he]
          exact List.mem_map_of_mem _ hct
        refine ⟨?_, ?_⟩
        · rw [hotherN _ hccid]
          exact (hcc c (List.mem_cons_of_mem d hct)).1
        · rw [hotherT _ hccid]
          exact (hcc c (List.mem_cons_of_mem d hct)).2
    · rw [if_neg hd] at hc
      rcases List.mem_cons.mp hc with rfl | hct
      · have hccid : c.conversation_id ≠ cid := by simpa using hd
        refine ⟨?_, ?_⟩
        · rw [hotherN _ hccid]
          exact (hcc c (List.mem_cons_self c t)).1
        · rw [hotherT _ hccid]
          exact (hcc c (List.mem_cons_self c t)).2
      · exact ih hnodup.2 (fun c' hc' => hcc c' (List.mem_cons_of_mem d hc')) c hct

/-- `StoreInv` only looks at the conversation and message tables. -/
theorem StoreInv_of_eq {a b : DB} (hc : b.conversations = a.conversations)
    (hm : b.messages = a.messages) (h : StoreInv a) : StoreInv b := by
  obtain ⟨h1, h2, h3⟩ := h
  refine ⟨by rw [hc]; exact h1, ?_, ?_⟩
  · intro m hmem
    rw [hm] at hmem
    obtain ⟨c, hcm, hcid⟩ := h2 m hmem
    exact ⟨c, by rw [hc]; exact hcm, hcid⟩
  · intro c hcm
    rw [hc] at hcm
    rw [hm]
    exact h3 c hcm

theorem StoreInv_empty : StoreInv ⟨[], [], [], 0⟩ := by
  refine ⟨List.nodup_nil, ?_, ?_⟩
  · intro m hm; cases hm
  · intro c hc; cases hc

theorem StoreInv_create {db : DB} (hinv : StoreInv db) (cid : String)
    (uid : Option String) (lang : String) (now : Nat)
    (hfresh : db.conversations.find? (fun c => c.conversation_id == cid) = none) :
    StoreInv (create_conversation db cid uid lang now).1 := by
  obtain ⟨h1, h2, h3⟩ := hinv
  have hfresh' : ∀ c ∈ db.conversations, c.conversation_id ≠ cid := by
    intro c hc
    have := List.find?_eq_none.mp hfresh c hc
    simpa using this
  obtain ⟨hcnt0, htok0⟩ := countMsgs_eq_zero_of_unowned h2 hfresh'
  refine ⟨?_, ?_, ?_⟩
  · show ((db.conversations ++ [_]).map Conversation.conversation_id).Nodup
    rw [List.map_append, List.nodup_append]
    refine ⟨h1, List.nodup_singleton _, ?_⟩
    intro a ha hb
    rw [List.map_singleton, List.mem_singleton] at hb
    obtain ⟨c, hc, rfl⟩ := List.mem_map.mp ha
    exact hfresh' c hc hb
  · intro m hm
    obtain ⟨c, hc, hcid⟩ := h2 m hm
    exact ⟨c, List.mem_append_left _ hc, hcid⟩
  · intro c hc
    rcases List.mem_append.mp hc with hcm | hcm
    · exact h3 c hcm
    · rw [List.mem_singleton] at hcm
      subst hcm
      exact ⟨hcnt0.symm, htok0.symm⟩

theorem StoreInv_add {db d : DB} {m : Message} {cid role sender content level : String}
    {cat : Option String} {tok : Nat} {rt : ℚ} {st : Bool} {tools : Option String}
    {api now : Nat} {today : String} (hinv : StoreInv db)
    (hadd : add_message db cid role sender content level cat tok rt st tools api now
      today = some (d, m)) : StoreInv d := by
  obtain ⟨h1, h2, h3⟩ := hinv
  unfold add_message add_message_tx1 at hadd
  cases hfind : db.conversations.find? (fun c => c.conversation_id == cid) with
  | none => rw [hfind] at hadd; cases hadd
  | some conv =>
    rw [hfind] at hadd
    simp only [Option.some.injEq, Prod.mk.injEq] at hadd
    obtain ⟨hd, hm⟩ := hadd
    subst hd
    have hconv_mem : conv ∈ db.conversations := List.mem_of_find?_eq_some hfind
    have hconv_cid : conv.conversation_id = cid := by
      simpa using List.find?_some hfind
    refine StoreInv_of_eq (update_daily_stats_frame _ conv.user_id _ today).2.1
      (update_daily_stats_frame _ conv.user_id _ today).1 ?_
    have hmap : (updateFirst (fun c => c.conversation_id == cid)
          (fun c => { c with total_messages := c.total_messages + 1,
                             total_tokens_used := c.total_tokens_used + tok,
                             updated_at := now }) db.conversations).map
          Conversation.conversation_id
        = db.conversations.map Conversation.conversation_id := by
      apply updateFirst_map_eq
      intro a
      rfl
    refine ⟨?_, ?_, ?_⟩
    · show ((updateFirst _ _ db.conversations).map Conversation.conversation_id).Nodup
      rw [hmap]
      exact h1
    · intro m' hm'
      rcases List.mem_append.mp hm' with hold | hnew
      · exact exists_mem_id_of_map_eq hmap (h2 m' hold)
      · rw [List.mem_singleton] at hnew
        subst hnew
        exact exists_mem_id_of_map_eq hmap ⟨conv, hconv_mem, hconv_cid⟩
    · intro c hc
      have hc' : c ∈ updateFirst (fun x => x.conversation_id == cid)
          (fun x => { x with total_messages := x.total_messages + 1,
                             total_tokens_used := x.total_tokens_used + tok,
                             updated_at := now }) db.conversations := hc
      show c.total_messages = countMsgs (db.messages ++ [_]) c.conversation_id ∧
        c.total_tokens_used = sumTokens (db.messages ++ [_]) c.conversation_id
      refine convCounters_updateFirst ?_ ?_ ?_ ?_ ?_ db.conversations h1 h3 c hc'
      · intro x
        rfl
      · intro c' _ hc2
        show c'.total_messages + 1 = _
        rw [countMsgs_append, hc2]
        simp
      · intro c' _ hc2
        show c'.total_tokens_used + tok = _
        rw [sumTokens_append, hc2]
        simp
      · intro cid' hne
        rw [countMsgs_append]
        simp [Ne.symm hne]
      · intro cid' hne
        rw [sumTokens_append]
        simp [Ne.symm hne]

theorem StoreInv_delete {db : DB} (hinv : StoreInv db) (mid now : Nat) :
    StoreInv (delete_message db mid now).1 := by
  obtain ⟨h1, h2, h3⟩ := hinv
  unfold delete_message
  cases hfind : db.messages.find? (fun x => x.id == mid) with
  | none => exact ⟨h1, h2, h3⟩
  | some msg =>
    have hmem := List.mem_of_find?_eq_some hfind
    have hp := List.find?_some hfind
    obtain ⟨a, l₁, l₂, hl₁, hpa, heq, herase⟩ :=
      List.exists_of_eraseP (p := fun x => x.id == mid) hmem hp
    have ha : a = msg := by
      have hsplit := find?_of_split l₁ l₂ a hl₁ hpa
      rw [← heq, hfind] at hsplit
      injection hsplit with h'
      exact h'.symm
    subst ha
    have hmap : (updateFirst (fun c => c.conversation_id == a.conversation_id)
          (fun c => { c with total_messages := c.total_messages - 1,
                             total_tokens_used := c.total_tokens_used - a.tokens_used,
                             updated_at := now }) db.conversations).map
          Conversation.conversation_id
        = db.conversations.map Conversation.conversation_id := by
      apply updateFirst_map_eq
      intro c
      rfl
    refine ⟨?_, ?_, ?_⟩
    · show ((updateFirst _ _ db.conversations).map Conversation.conversation_id).Nodup
      rw [hmap]
      exact h1
    · intro m' hm'
      show ∃ c ∈ updateFirst _ _ db.conversations, _
      rw [herase] at hm'
      have hm'' : m' ∈ db.messages := by
        rw [heq]
        rcases List.mem_append.mp hm' with hl | hr
        · exact List.mem_append_left _ hl
        · exact List.mem_append_right _ (List.mem_cons_of_mem _ hr)
      exact exists_mem_id_of_map_eq hmap (h2 m' hm'')
    · have hcntL : countMsgs db.messages a.conversation_id
          = countMsgs (l₁ ++ l₂) a.conversation_id + 1 := by
        rw [heq, countMsgs_middle]
        simp
      have htokL : sumTokens db.messages a.conversation_id
          = sumTokens (l₁ ++ l₂) a.conversation_id + a.tokens_used := by
        rw [heq, sumTokens_middle]
        simp
      have hcntO : ∀ cid', cid' ≠ a.conversation_id →
          countMsgs (l₁ ++ l₂) cid' = countMsgs db.messages cid' := by
        intro cid' hne
        rw [heq, countMsgs_middle]
        simp [Ne.symm hne]
      have htokO : ∀ cid', cid' ≠ a.conversation_id →
          sumTokens (l₁ ++ l₂) cid' = sumTokens db.messages cid' := by
        intro cid' hne
        rw [heq, sumTokens_middle]
        simp [Ne.symm hne]
      intro c hc
      have hc' : c ∈ updateFirst (fun x => x.conversation_id == a.conversation_id)
          (fun x => { x with total_messages := x.total_messages - 1,
                             total_tokens_used := x.total_tokens_used - a.tokens_used,
                             updated_at := now }) db.conversations := hc
      show c.total_messages
          = countMsgs (List.eraseP (fun x => x.id == mid) db.messages) c.conversation_id ∧
        c.total_tokens_used
          = sumTokens (List.eraseP (fun x => x.id == mid) db.messages) c.conversation_id
      rw [herase]
      refine convCounters_updateFirst ?_ ?_ ?_ hcntO htokO db.conversations h1 h3 c hc'
      · intro x
        rfl
      · intro c' _ hc2
        show c'.total_messages - 1 = _
        rw [hc2, hcntL]
        omega
      · intro c' _ hc2
        show c'.total_tokens_used - a.tokens_used = _
        rw [hc2, htokL]
        omega

/-! ## Claim theorems -/

/-- **C6.** The classifier is a pure function (a Lean `def`), and the
first-match-wins precedence holds as claimed: `"My password isn't
working"` classifies as level `sensitive`, category `general`; messages
containing keywords of two levels (resp. two categories) get the
higher-precedence one, in the order sensitive > critical > high > mid >
low and billing > technical > packages > entertainment > account >
general. -/
theorem claim_C6_classifier :
    classify_message_level "My password isn't working" = "sensitive" ∧
    detect_category "My password isn't working" = "general" ∧
    classify_message_level "payment password" = "sensitive" ∧
    classify_message_level "internet bill" = "critical" ∧
    classify_message_level "package speed" = "high" ∧
    classify_message_level "my plan" = "mid" ∧
    classify_message_level "hello" = "low" ∧
    detect_category "internet bill" = "billing" ∧
    detect_category "package internet" = "technical" ∧
    detect_category "movie package" = "packages" ∧
    detect_category "account movie" = "entertainment" ∧
    detect_category "my account" = "account" := by
  decide

/-- **C8** (counterexample). Two brace-free raw inputs on which the
parser does *not* return the cleaned input text as the reply: the
whitespace-only `" "` (cleaned text empty, reply is the canned
could-not-generate string) and the two-character `"\n"` (cleaned text
survives extraction but the line-338 unescape-and-trim empties it, so the
reply is the canned apology). -/
theorem claim_C8_counterexample :
    pyIn "\x7b" " " = false ∧
    (parse_pipeline unusedJsonStage id " " "EN").reply ≠ cleanMarkdown " " ∧
    pyIn "\x7b" "\\n" = false ∧
    (parse_pipeline unusedJsonStage id "\\n" "EN").reply ≠ cleanMarkdown "\\n" := by
  decide

/-- **C8** (amended). For every raw output that contains no brace and no
backslash (so stage 1 never consults the external JSON machinery and the
line-338 unescape rewrites nothing) and whose markdown-stripped cleaned
text is non-empty, the parser returns the cleaned input text itself as
the reply together with the default metadata
`{role: assistant, sender: assistant, store: true}` — for every behaviour
of the external JSON/regex machinery.  Brace-free inputs whose cleaned
text is blank, or which an unescape can blank out, instead receive the
canned fallbacks exhibited by the counterexample. -/
theorem claim_C8_amended (jsonStage : String → ParseOutcome)
    (step3Fix : String → String) (raw_output language : String)
    (hbrace : pyIn "\x7b" raw_output = false)
    (hbs : pyIn "\\" raw_output = false)
    (hne : cleanMarkdown raw_output ≠ "") :
    parse_pipeline jsonStage step3Fix raw_output language
      = { reply := cleanMarkdown raw_output, metadata := some defaultMd } := by
  have hbrace' : containsC ['\x7b'] raw_output.data = false := hbrace
  have hbs' : '\\' ∉ raw_output.data := by
    intro hm
    have hc : containsC ['\\'] raw_output.data = true := containsC_singleton.mpr hm
    have hb : containsC ['\\'] raw_output.data = false := hbs
    rw [hc] at hb
    exact Bool.true_eq_false.mp hb
  have hbraceclean : containsC ['\x7b'] (cleanMarkdown raw_output).data = false := by
    by_contra hcc
    have hm : '\x7b' ∈ (cleanMarkdown raw_output).data :=
      containsC_singleton.mp (by simpa using hcc)
    have hm' := mem_of_mem_cleanMarkdown hm
    rw [containsC_singleton.mpr hm'] at hbrace'
    exact Bool.true_eq_false.mp hbrace'
  have hbsclean : '\\' ∉ (cleanMarkdown raw_output).data :=
    fun hm => hbs' (mem_of_mem_cleanMarkdown hm)
  have hstrip : pyStrip (cleanMarkdown raw_output) = cleanMarkdown raw_output :=
    pyStrip_cleanMarkdown raw_output
  have hunesc : pyUnescapeNewlines (cleanMarkdown raw_output)
      = cleanMarkdown raw_output := by
    unfold pyUnescapeNewlines
    rw [unescapeNewlinesC_eq_self hbsclean]
  rw [parse_pipeline, extract_stages_no_brace _ _ _ hbraceclean]
  simp only [finalize_reply]
  rw [if_neg (show ¬pyStrip (cleanMarkdown raw_output) = "" by
    rw [hstrip]; exact hne)]
  rw [hunesc, hstrip, hstrip, if_neg hne]

/-- Witness for the amended C8: the spec's own example input. -/
theorem claim_C8_amended_witness :
    parse_pipeline unusedJsonStage id "Hello, just plain text" "EN"
      = { reply := "Hello, just plain text", metadata := some defaultMd } := by
  rw [claim_C8_amended unusedJsonStage id "Hello, just plain text" "EN"
    (by decide) (by decide) (by decide)]
  decide

/-- **C2** (code bug). Appending three assistant messages with response
times 100 ms, 200 ms, 300 ms to an empty daily bucket makes
`_update_daily_stats` produce the running averages 50, 100 and 150 — not
100, 150 and 200 as the spec formula prescribes — because the source
reads `stats.assistant_messages` as `current_count` *after* already
incrementing it (crud.py line 403 vs 423), contradicting its own comment
"Calculate new average before incrementing count". -/
theorem claim_C2_running_average_code_value :
    ((c2_step ⟨[], [], [], 0⟩ 100).stats.map DailyStat.avg_response_time_ms) = [50] ∧
    ((c2_step (c2_step ⟨[], [], [], 0⟩ 100) 200).stats.map DailyStat.avg_response_time_ms)
      = [100] ∧
    ((c2_step (c2_step (c2_step ⟨[], [], [], 0⟩ 100) 200) 300).stats.map
        DailyStat.avg_response_time_ms) = [150] ∧
    (150 : ℚ) ≠ 200 := by
  refine ⟨?_, ?_, ?_, by norm_num⟩ <;>
    · simp [c2_step, update_daily_stats, bumpStats, bumpLevelCount, c2_assistant_message,
        natRat, updateFirst]
      norm_num

/-- **C1** (counterexample). A concrete `add_message` call against a
store with one conversation commits an intermediate state (the commit at
crud.py line 138) that holds the new message row but not the
daily-statistics update (committed only at line 431), so the append is
not observably atomic. -/
theorem claim_C1_counterexample :
    ¬ append_observably_atomic oneConvDB "c1" "user" "user" "hi" "low" none 5 0 true
        none 0 7 "2026-10-12" := by
  decide

/-- **C3** (counterexample). In a single conversation: two appends get
`message_index` 1 and 2, the second message (primary key 1) is deleted,
and the next append is assigned `message_index` 2 again — an index
repeats after an intervening deletion. -/
theorem claim_C3_counterexample :
    c3_r1.map (fun p => p.2.message_index) = some 1 ∧
    c3_r2.map (fun p => (p.2.id, p.2.message_index)) = some (1, 2) ∧
    c3_r2.map (fun p => (delete_message p.1 1 3).2) = some true ∧
    c3_r4.map (fun p => p.2.message_index) = some 2 := by
  decide

/-- **C9** (counterexample). For an existing conversation whose
`user_id` is `NULL` (an anonymous conversation) and which has no
messages, the endpoint raises 404 even though the conversation exists:
the guard `not result["user_id"]` treats the anonymous `None` as "no
metadata resolved". -/
theorem claim_C9_counterexample :
    (c9_db.conversations.find? (fun c => c.conversation_id == "anon_1")).isSome = true ∧
    (match endpoint_get_conversation_messages c9_db "anon_1" 0 50 none none none with
      | Except.error n => n == 404
      | Except.ok _ => false) = true := by
  decide

/-- **C5** (counterexample). Two non-empty raw outputs for which the
reply is a canned fallback string rather than the raw input: the
whitespace-only `" "` yields the line-335 could-not-generate string, and
`"\n"`-as-two-characters survives extraction but is emptied by the final
unescape-and-trim cleanup, yielding the line-346 apology.  Neither input
contains a brace, so the external JSON machinery is not consulted. -/
theorem claim_C5_counterexample :
    (parse_pipeline unusedJsonStage id " " "EN").reply = cannedCouldNotGenerate ∧
    " " ≠ "" ∧
    (parse_pipeline unusedJsonStage id "\\n" "EN").reply
      = "I apologize, Please try asking again." ∧
    "\\n" ≠ "" ∧
    pyIn "\x7b" " " = false ∧ pyIn "\x7b" "\\n" = false := by
  decide

/-- **C7.** The shared pagination envelope: `page = skip / limit + 1`
(floor division), `totalPages = (total + limit - 1) / limit`, which for
`limit ≥ 1` is exactly the ceiling of `total / limit` (the least `n` with
`total ≤ limit * n`), is `0` when `total = 0`, and gives `page = 3`,
`totalPages = 3` for `total = 45`, `limit = 20`, `skip = 40`. -/
theorem claim_C7_pagination (total skip limit : Nat) (hl : 1 ≤ limit) :
    pageOf skip limit = skip / limit + 1 ∧
    total ≤ limit * totalPagesOf total limit ∧
    (∀ n, total ≤ limit * n → totalPagesOf total limit ≤ n) ∧
    (total = 0 → totalPagesOf total limit = 0) ∧
    pageOf 40 20 = 3 ∧ totalPagesOf 45 20 = 3 := by
  have h0 : 0 < limit := hl
  have hceil : totalPagesOf total limit = total ⌈/⌉ limit :=
    (Nat.ceilDiv_eq_add_pred_div total limit).symm
  refine ⟨rfl, ?_, ?_, ?_, by decide, by decide⟩
  · rw [hceil]
    exact (ceilDiv_le_iff_le_mul h0).1 le_rfl
  · intro n hn
    rw [hceil]
    exact (ceilDiv_le_iff_le_mul h0).2 hn
  · intro ht
    subst ht
    rw [hceil]
    simp

/-- Witness for C7 at `total = 45`, `limit = 20`, `skip = 40`. -/
theorem claim_C7_pagination_witness :
    pageOf 40 20 = 3 ∧ totalPagesOf 45 20 = 3 :=
  ⟨(claim_C7_pagination 45 40 20 (by decide)).2.2.2.2.1,
   (claim_C7_pagination 45 40 20 (by decide)).2.2.2.2.2⟩

/-- **C5** (amended). The parser always produces a non-empty reply.  When
all extraction stages yield a blank reply, it falls back to the raw
output if that is not whitespace-only — the delivered reply being the raw
output *after* the final newline-unescape-and-trim cleanup of line 338 —
and to the canned could-not-generate string when the raw output is blank;
a reply that the line-338 cleanup empties is replaced by the
language-dependent canned apology instead of the raw input. -/
theorem claim_C5_amended (jsonStage : String → ParseOutcome) (step3Fix : String → String)
    (raw_output language : String) :
    (parse_pipeline jsonStage step3Fix raw_output language).reply ≠ "" ∧
    (pyStrip (extract_stages jsonStage step3Fix (cleanMarkdown raw_output)).reply = "" →
      pyStrip raw_output ≠ "" →
      pyStrip (pyUnescapeNewlines raw_output) ≠ "" →
      (parse_pipeline jsonStage step3Fix raw_output language).reply
        = pyStrip (pyUnescapeNewlines raw_output)) ∧
    (pyStrip (extract_stages jsonStage step3Fix (cleanMarkdown raw_output)).reply = "" →
      pyStrip raw_output = "" →
      (parse_pipeline jsonStage step3Fix raw_output language).reply
        = cannedCouldNotGenerate) := by
  refine ⟨finalize_reply_ne_empty language raw_output _, ?_, ?_⟩
  · intro he hraw hun
    show (finalize_reply language raw_output _).reply = _
    simp only [finalize_reply, if_pos he, if_pos hraw]
    rw [if_neg (pyStrip_pyStrip_ne_empty hun)]
  · intro he hraw
    show (finalize_reply language raw_output _).reply = _
    simp only [finalize_reply, if_pos he]
    rw [if_neg (not_not_intro hraw), if_neg (by decide)]
    decide

/-- Witness for the amended C5: on `"{}"` (strict JSON parse succeeds
with an empty reply) the raw output is delivered; on whitespace-only
`"  "` the canned could-not-generate string; and a non-empty reply on an
ordinary input. -/
theorem claim_C5_amended_witness :
    (parse_pipeline unusedJsonStage id "{}" "EN").reply
      = pyStrip (pyUnescapeNewlines "{}") ∧
    (parse_pipeline unusedJsonStage id "  " "EN").reply = cannedCouldNotGenerate ∧
    (parse_pipeline unusedJsonStage id "hello" "EN").reply ≠ "" :=
  ⟨(claim_C5_amended unusedJsonStage id "{}" "EN").2.1 (by decide) (by decide) (by decide),
   (claim_C5_amended unusedJsonStage id "  " "EN").2.2 (by decide) (by decide),
   (claim_C5_amended unusedJsonStage id "hello" "EN").1⟩

/-- **C9** (amended). The endpoint signals 404 exactly when zero messages
matched *and* the resolved `user_id` field is falsy — which happens both
when the conversation row is absent and when it exists but is anonymous
(`user_id` `NULL` or empty).  An existing conversation with a non-empty
`user_id` and zero matching messages succeeds. -/
theorem claim_C9_amended (db : DB) (cid : String) (skip limit : Nat)
    (rf lf cf : Option String) :
    (endpoint_get_conversation_messages db cid skip limit rf lf cf
        = Except.error 404
      ↔ ((get_conversation_messages db cid skip limit rf lf cf).total_messages = 0 ∧
         pyFalsyOptStr (get_conversation_messages db cid skip limit rf lf cf).user_id
           = true)) ∧
    (∀ c u, db.conversations.find? (fun x => x.conversation_id == cid) = some c →
      c.user_id = some u → u ≠ "" →
      endpoint_get_conversation_messages db cid skip limit rf lf cf
        = Except.ok (get_conversation_messages db cid skip limit rf lf cf)) := by
  constructor
  · unfold endpoint_get_conversation_messages
    by_cases hcond :
        ((get_conversation_messages db cid skip limit rf lf cf).total_messages == 0 &&
          pyFalsyOptStr (get_conversation_messages db cid skip limit rf lf cf).user_id)
          = true
    · rw [if_pos hcond]
      simp only [Bool.and_eq_true, beq_iff_eq] at hcond
      simp [hcond]
    · rw [if_neg hcond]
      simp only [Bool.and_eq_true, beq_iff_eq] at hcond
      constructor
      · intro h
        exact absurd h (by simp)
      · intro h
        exact absurd ⟨by simp [h.1], h.2⟩ hcond
  · intro c u hfind hu hne
    have huid : (get_conversation_messages db cid skip limit rf lf cf).user_id
        = some u := by
      simp [get_conversation_messages, hfind, hu]
    unfold endpoint_get_conversation_messages
    rw [if_neg]
    rw [huid]
    simp [pyFalsyOptStr, hne]

/-- Witness for the amended C9: an existing user-owned conversation with
zero messages is served successfully. -/
theorem claim_C9_amended_witness :
    endpoint_get_conversation_messages oneConvDB "c1" 0 50 none none none
      = Except.ok (get_conversation_messages oneConvDB "c1" 0 50 none none none) :=
  (claim_C9_amended oneConvDB "c1" 0 50 none none none).2
    ⟨"c1", some "u", "user", "EN", 0, 0, 0⟩ "u" (by decide) rfl (by decide)

/-- **C3** (amended). Each append assigns `message_index` as one more
than the current maximum over the messages presently in the conversation
(1 when none exist), so the new index strictly exceeds the index of every
message present at append time, and deleting a message never renumbers
the surviving rows; but after deleting the highest-indexed message the
next append reuses its index (see the counterexample). -/
theorem claim_C3_amended (db : DB) (cid role sender content level : String)
    (cat : Option String) (tok : Nat) (rt : ℚ) (st : Bool) (tools : Option String)
    (api now : Nat) (today : String) :
    (∀ m, (add_message db cid role sender content level cat tok rt st tools api
          now today).map Prod.snd = some m →
      m.message_index
          = ((db.messages.filter (fun x => x.conversation_id == cid)).map
              Message.message_index).foldr max 0 + 1 ∧
        ∀ m' ∈ db.messages, m'.conversation_id = cid →
          m'.message_index < m.message_index) ∧
    (∀ mid dnow, ((delete_message db mid dnow).1).messages.Sublist db.messages) := by
  constructor
  · intro m hadd
    unfold add_message add_message_tx1 at hadd
    cases hfind : db.conversations.find? (fun c => c.conversation_id == cid) with
    | none => rw [hfind] at hadd; simp at hadd
    | some conv =>
      rw [hfind] at hadd
      simp only [Option.map_some', Option.some.injEq] at hadd
      subst hadd
      refine ⟨rfl, ?_⟩
      intro m' hm' hcid
      have hmem : m'.message_index
          ∈ (db.messages.filter (fun x => x.conversation_id == cid)).map
              Message.message_index := by
        exact List.mem_map_of_mem _ (List.mem_filter.mpr ⟨hm', by simp [hcid]⟩)
      exact Nat.lt_succ_of_le (le_foldr_max hmem)
  · intro mid dnow
    unfold delete_message
    cases hfind : db.messages.find? (fun x => x.id == mid) with
    | none => exact List.Sublist.refl _
    | some msg => exact List.eraseP_sublist _

/-- Witness for the amended C3: appending to a store holding one empty
conversation assigns `message_index` `foldr max 0 [] + 1 = 1`. -/
theorem claim_C3_amended_witness :
    (⟨0, "c1", "user", "user", "hi", 1, "low", none, 0, 0, true, false, none, 0⟩ :
        Message).message_index
      = ((oneConvDB.messages.filter (fun x => x.conversation_id == "c1")).map
          Message.message_index).foldr max 0 + 1 :=
  (((claim_C3_amended oneConvDB "c1" "user" "user" "hi" "low" none 0 0 true none 0 1
      "2026-10-12").1) _ (by decide)).1

/-- **C1** (amended). `add_message` runs two transactions: the commit at
crud.py line 138 writes the message row and the conversation
counter/`updated_at` update together and leaves the statistics untouched,
and the commit at line 431 (inside `_update_daily_stats`) then writes
only the statistics table.  A failed conversation lookup commits nothing,
but a failure between the two commits leaves a message whose statistics
bucket was never updated (see the counterexample). -/
theorem claim_C1_amended (db : DB) (cid role sender content level : String)
    (cat : Option String) (tok : Nat) (rt : ℚ) (st : Bool) (tools : Option String)
    (api now : Nat) (today : String) :
    (db.conversations.find? (fun c => c.conversation_id == cid) = none →
      add_message_committed_states db cid role sender content level cat tok rt st
        tools api now today = [db]) ∧
    (∀ conv, db.conversations.find? (fun c => c.conversation_id == cid) = some conv →
      ∃ db1 m, add_message_tx1 db cid role sender content level cat tok rt st tools
          api now = some (db1, m, conv.user_id) ∧
        db1.messages = db.messages ++ [m] ∧
        db1.conversations = updateFirst (fun c => c.conversation_id == cid)
          (fun c => { c with total_messages := c.total_messages + 1,
                             total_tokens_used := c.total_tokens_used + tok,
                             updated_at := now }) db.conversations ∧
        db1.stats = db.stats ∧
        add_message_committed_states db cid role sender content level cat tok rt st
            tools api now today
          = [db, db1, update_daily_stats db1 conv.user_id m today] ∧
        (update_daily_stats db1 conv.user_id m today).messages = db1.messages ∧
        (update_daily_stats db1 conv.user_id m today).conversations
          = db1.conversations ∧
        add_message db cid role sender content level cat tok rt st tools api now today
          = some (update_daily_stats db1 conv.user_id m today, m)) := by
  constructor
  · intro hfind
    unfold add_message_committed_states add_message_tx1
    rw [hfind]
  · intro conv hfind
    unfold add_message add_message_committed_states add_message_tx1
    rw [hfind]
    exact ⟨_, _, rfl, rfl, rfl, rfl, rfl, (update_daily_stats_frame _ _ _ _).1,
      (update_daily_stats_frame _ _ _ _).2.1, rfl⟩

/-- Witness for the amended C1 at a concrete one-conversation store. -/
theorem claim_C1_amended_witness :
    (add_message_committed_states ⟨[], [], [], 0⟩ "c1" "user" "user" "hi" "low" none 5
        0 true none 0 7 "2026-10-12" = [⟨[], [], [], 0⟩]) ∧
    ∃ db1 m, add_message_tx1 oneConvDB "c1" "user" "user" "hi" "low" none 5 0 true
        none 0 7 = some (db1, m, some "u") ∧
      db1.messages = oneConvDB.messages ++ [m] ∧
      db1.conversations = updateFirst (fun c => c.conversation_id == "c1")
        (fun c => { c with total_messages := c.total_messages + 1,
                           total_tokens_used := c.total_tokens_used + 5,
                           updated_at := 7 }) oneConvDB.conversations ∧
      db1.stats = oneConvDB.stats ∧
      add_message_committed_states oneConvDB "c1" "user" "user" "hi" "low" none 5 0
          true none 0 7 "2026-10-12"
        = [oneConvDB, db1, update_daily_stats db1 (some "u") m "2026-10-12"] ∧
      (update_daily_stats db1 (some "u") m "2026-10-12").messages = db1.messages ∧
      (update_daily_stats db1 (some "u") m "2026-10-12").conversations
        = db1.conversations ∧
      add_message oneConvDB "c1" "user" "user" "hi" "low" none 5 0 true none 0 7
          "2026-10-12"
        = some (update_daily_stats db1 (some "u") m "2026-10-12", m) :=
  ⟨(claim_C1_amended ⟨[], [], [], 0⟩ "c1" "user" "user" "hi" "low" none 5 0 true none
      0 7 "2026-10-12").1 (by decide),
   (claim_C1_amended oneConvDB "c1" "user" "user" "hi" "low" none 5 0 true none 0 7
      "2026-10-12").2 ⟨"c1", some "u", "user", "EN", 0, 0, 0⟩ (by decide)⟩

/-- **C10.** `add_message` behaves identically for `store = false` and
`store = true`: success does not depend on the flag, the row is always
inserted (with the flag merely recorded on it), the conversation counters
are updated, and the daily-statistics bucket's message total is
incremented. -/
theorem claim_C10_store_flag (db : DB) (cid role sender content level : String)
    (cat : Option String) (tok : Nat) (rt : ℚ) (tools : Option String)
    (api now : Nat) (today : String) (b : Bool) :
    ((add_message db cid role sender content level cat tok rt b tools api now
        today).isSome
      = (add_message db cid role sender content level cat tok rt true tools api now
          today).isSome) ∧
    (∀ conv, db.conversations.find? (fun c => c.conversation_id == cid) = some conv →
      ∃ d m, add_message db cid role sender content level cat tok rt b tools api now
          today = some (d, m) ∧
        m.store = b ∧
        d.messages = db.messages ++ [m] ∧
        d.conversations = updateFirst (fun c => c.conversation_id == cid)
          (fun c => { c with total_messages := c.total_messages + 1,
                             total_tokens_used := c.total_tokens_used + tok,
                             updated_at := now }) db.conversations ∧
        bucketTotal d today conv.user_id = bucketTotal db today conv.user_id + 1) := by
  constructor
  · unfold add_message add_message_tx1
    cases db.conversations.find? (fun c => c.conversation_id == cid) <;> rfl
  · intro conv hfind
    obtain ⟨db1, m, htx, hmsgs, hconvs, hstats, _, hfmsgs, hfconvs, hadd⟩ :=
      (claim_C1_amended db cid role sender content level cat tok rt b tools api now
        today).2 conv hfind
    refine ⟨_, m, hadd, ?_, ?_, ?_, ?_⟩
    · unfold add_message_tx1 at htx
      rw [hfind] at htx
      simp only [Option.some.injEq, Prod.mk.injEq] at htx
      rw [← htx.2.1]
    · rw [hfmsgs, hmsgs]
    · rw [hfconvs, hconvs]
    · have := bucketTotal_update_daily_stats db1 conv.user_id m today
      rw [this]
      unfold bucketTotal
      rw [hstats]

/-- Witness for C10: appending with `store = false` against a
one-conversation store still inserts the row and updates counters and
statistics. -/
theorem claim_C10_store_flag_witness :
    ∃ d m, add_message oneConvDB "c1" "user" "user" "hi" "low" none 5 0 false none 0 7
        "2026-10-12" = some (d, m) ∧
      m.store = false ∧
      d.messages = oneConvDB.messages ++ [m] ∧
      d.conversations = updateFirst (fun c => c.conversation_id == "c1")
        (fun c => { c with total_messages := c.total_messages + 1,
                           total_tokens_used := c.total_tokens_used + 5,
                           updated_at := 7 }) oneConvDB.conversations ∧
      bucketTotal d "2026-10-12" (some "u")
        = bucketTotal oneConvDB "2026-10-12" (some "u") + 1 :=
  (claim_C10_store_flag oneConvDB "c1" "user" "user" "hi" "low" none 5 0 none 0 7
    "2026-10-12" false).2 ⟨"c1", some "u", "user", "EN", 0, 0, 0⟩ (by decide)

/-- **C4.** After any sequence of conversation creations, message
appends and single-message deletions starting from the empty store, every
conversation's `total_messages` equals the number of messages it owns and
its `total_tokens_used` equals the sum of their `tokens_used`. -/
theorem claim_C4_counters (db : DB) (h : Reachable db) : ConvCountersCorrect db := by
  have hall : StoreInv db := by
    induction h with
    | empty => exact StoreInv_empty
    | create cid uid lang now hdb hfresh ih => exact StoreInv_create ih cid uid lang now hfresh
    | append cid role sender content level cat tok rt st tools api now today hdb hadd ih =>
      exact StoreInv_add ih hadd
    | delete mid now hdb ih => exact StoreInv_delete ih mid now
  exact hall.2.2

/-- Witness for C4 on the store reached by one creation: the fresh
conversation's counter matches its (empty) message set. -/
theorem claim_C4_counters_witness :
    (⟨"c1", some "u", "user", "EN", 0, 0, 0⟩ : Conversation).total_messages
      = countMsgs (create_conversation ⟨[], [], [], 0⟩ "c1" (some "u") "EN" 0).1.messages
          "c1" :=
  ((claim_C4_counters _ (Reachable.create "c1" (some "u") "EN" 0 Reachable.empty rfl))
    ⟨"c1", some "u", "user", "EN", 0, 0, 0⟩ (by decide)).1

end ChatBot
